import Mathlib

/-!
# Verification of the onionize publication-and-gating pipeline

A shallow embedding of `src/lib/onionize.go` (package `onionize`).

Go strings are byte strings; we model them as `List Nat` (each element a
byte value < 256; none of the properties below depend on the bound).
External library functions that the source calls (`strings.TrimLeft`,
`strings.TrimPrefix`, `crypto/subtle.ConstantTimeCompare`, `net/url.Parse`)
are modelled faithfully from their documented behaviour; `net/url.Parse`
is modelled at its interface boundary (see `urlParse`).
-/

/-- Model of `strings.TrimLeft(s, "/")` as used in `CheckAndRewriteSlug`:
drop every leading `'/'` byte (47). Go's TrimLeft removes all leading
code points from the cutset, so it removes every leading slash, not one. -/
def trimLeftSlash (s : List Nat) : List Nat :=
  s.dropWhile (fun b => b = 47)

/-- Model of `strings.TrimPrefix(s, pre)`: remove `pre` from the front of
`s` if it is a prefix, otherwise return `s` unchanged. -/
def trimPrefixList (s pre : List Nat) : List Nat :=
  if pre.isPrefixOf s then s.drop pre.length else s

/-- Model of `crypto/subtle.ConstantTimeCompare(x, y)` together with its
loop-iteration count. The Go implementation returns early with 0 when the
lengths differ; otherwise it runs one loop iteration per byte, or-ing the
xor of each byte pair into an accumulator `v`, and finally returns
`ConstantTimeByteEq(v, 0)` (1 when `v = 0`, else 0). The first component
is the returned value, the second the number of loop iterations executed. -/
def ConstantTimeCompareInstr (x y : List Nat) : Nat × Nat :=
  if x.length = y.length then
    (if (List.zipWith (fun a b => a ^^^ b) x y).foldl (fun v w => v ||| w) 0 = 0
       then 1 else 0,
     (List.zipWith (fun a b => a ^^^ b) x y).length)
  else (0, 0)

/-- The value returned by `subtle.ConstantTimeCompare`. -/
def ConstantTimeCompare (x y : List Nat) : Nat :=
  (ConstantTimeCompareInstr x y).1

/-- The number of comparison-loop iterations `subtle.ConstantTimeCompare`
executes (its data-independent cost measure). -/
def ConstantTimeCompareCost (x y : List Nat) : Nat :=
  (ConstantTimeCompareInstr x y).2

/-- Model of `net/url.Parse` at its interface boundary, specialised to the
strings this program feeds it (values of `req.URL.String()` with leading
slashes and the slug removed). Parsing fails (Go returns `nil, err`) on
ASCII control characters; on the already-serialised URL strings that reach
this call site, the `String()` rendering of a successful parse round-trips
the input. -/
def urlParse (s : List Nat) : Option (List Nat) :=
  if ∀ b ∈ s, 32 ≤ b ∧ b ≠ 127 then some s else none

/-- Result of `CheckAndRewriteSlug`: either a non-nil error (`mismatch`,
leading to a connection reset in the handler) or a nil error (`pass`),
in which case `url` is the value of `req.URL` afterwards — `none` models
the nil pointer assigned when the re-parse failed. -/
inductive GateResult where
  | mismatch
  | pass (url : Option (List Nat))
deriving DecidableEq

/-- Shallow embedding of `CheckAndRewriteSlug(req, slug)` from
`src/lib/onionize.go`. `url` is `req.URL.String()` on entry; the returned
`GateResult.pass` carries `req.URL` after the in-place rewrite. With an
empty slug the function returns nil immediately and leaves `req.URL`
untouched. -/
def CheckAndRewriteSlug (slug url : List Nat) : GateResult :=
  if slug = [] then .pass (some url)
  else
    let reqURL := trimLeftSlash url
    if reqURL.length < slug.length then .mismatch
    else if ConstantTimeCompare slug (reqURL.take slug.length) ≠ 1 then .mismatch
    else .pass (urlParse (trimPrefixList reqURL slug))

/-- Model of `ResetHTTPConn(&w)`: hijack the underlying connection and
close it with no HTTP response. `hijackOk` says whether the
ResponseWriter supports hijacking and the hijack succeeds; otherwise the
function returns an error (and the handler merely logs it). -/
def ResetHTTPConn (hijackOk : Bool) : Except Unit Unit :=
  if hijackOk then .ok () else .error ()

/-- Observable outcome of the request handler registered in `Onionize`:
`reset` — connection hijacked and closed, no HTTP response;
`silentFail` — reset attempt failed, handler returns with no response;
`panicked` — the handler dereferenced a nil `req.URL`;
`redirectThenServe loc url` — a 302 redirect to `loc` is written and then,
with no early return, the file server is also invoked on `req.URL = url`;
`serve url` — the file server is invoked on `req.URL = url`. -/
inductive HandlerOutcome where
  | reset
  | silentFail
  | panicked
  | redirectThenServe (loc : List Nat) (url : Option (List Nat))
  | serve (url : Option (List Nat))
deriving DecidableEq

/-- Shallow embedding of the handler closure registered on `"/"` inside
`Onionize`. On a slug mismatch it calls `ResetHTTPConn`, logging (and
silently dropping the request) if that fails. On success it evaluates
`req.URL.String() == ""` — a nil dereference when the re-parse returned
nil — issuing a 302 redirect to `"/" + slug + "/"` for the empty string,
and then (in either case, there being no return after the redirect)
invokes `fileserver.ServeHTTP`. -/
def onionizeHandler (slug : List Nat) (hijackOk : Bool) (url : List Nat) :
    HandlerOutcome :=
  match CheckAndRewriteSlug slug url with
  | .mismatch =>
      match ResetHTTPConn hijackOk with
      | .ok _ => .reset
      | .error _ => .silentFail
  | .pass none => .panicked
  | .pass (some u) =>
      if u = [] then .redirectThenServe (47 :: (slug ++ [47])) (some u)
      else .serve (some u)

/-! ## Helper lemmas about the comparison primitive -/

theorem lor_eq_zero_iff (a b : Nat) : a ||| b = 0 ↔ a = 0 ∧ b = 0 := by
  constructor
  · intro h
    have key : ∀ i, a.testBit i = false ∧ b.testBit i = false := by
      intro i
      have hi := congrArg (fun n => Nat.testBit n i) h
      simpa using hi
    refine ⟨Nat.eq_of_testBit_eq fun i => ?_, Nat.eq_of_testBit_eq fun i => ?_⟩
    · simp [(key i).1]
    · simp [(key i).2]
  · rintro ⟨rfl, rfl⟩
    rfl

theorem foldl_lor_eq_zero (l : List Nat) (a : Nat) :
    l.foldl (fun v w => v ||| w) a = 0 ↔ a = 0 ∧ ∀ x ∈ l, x = 0 := by
  induction l generalizing a with
  | nil => simp
  | cons y ys ih =>
      simp only [List.foldl_cons, ih, lor_eq_zero_iff, List.mem_cons]
      constructor
      · rintro ⟨⟨ha, hy⟩, hall⟩
        refine ⟨ha, ?_⟩
        rintro x (rfl | hx)
        · exact hy
        · exact hall x hx
      · rintro ⟨ha, hall⟩
        exact ⟨⟨ha, hall y (Or.inl rfl)⟩, fun x hx => hall x (Or.inr hx)⟩

theorem zipWith_xor_zero_iff (x y : List Nat) (h : x.length = y.length) :
    (∀ z ∈ List.zipWith (fun a b => a ^^^ b) x y, z = 0) ↔ x = y := by
  induction x generalizing y with
  | nil =>
      cases y with
      | nil => simp
      | cons b bs => exact absurd h (by simp)
  | cons a as ih =>
      cases y with
      | nil => exact absurd h (by simp)
      | cons b bs =>
          replace h : as.length = bs.length := by simpa using h
          simp only [List.zipWith_cons_cons, List.mem_cons, List.cons.injEq]
          constructor
          · intro hall
            have hab : a = b := Nat.xor_eq_zero.mp (hall _ (Or.inl rfl))
            have : as = bs := (ih bs h).mp (fun z hz => hall z (Or.inr hz))
            exact ⟨hab, this⟩
          · rintro ⟨rfl, rfl⟩
            rintro z (rfl | hz)
            · simp
            · exact ((ih as rfl).mpr rfl) z hz

theorem ConstantTimeCompare_eq_one_iff (x y : List Nat)
    (h : x.length = y.length) : ConstantTimeCompare x y = 1 ↔ x = y := by
  unfold ConstantTimeCompare ConstantTimeCompareInstr
  rw [if_pos h]
  by_cases hz :
      (List.zipWith (fun a b => a ^^^ b) x y).foldl (fun v w => v ||| w) 0 = 0
  · have hx : x = y :=
      (zipWith_xor_zero_iff x y h).mp ((foldl_lor_eq_zero _ _).mp hz).2
    rw [if_pos hz]
    simp [hx]
  · have hx : x ≠ y := fun he =>
      hz ((foldl_lor_eq_zero _ _).mpr ⟨rfl, (zipWith_xor_zero_iff x y h).mpr he⟩)
    rw [if_neg hz]
    simp [hx]

theorem ConstantTimeCompareCost_eq (x y : List Nat) (h : x.length = y.length) :
    ConstantTimeCompareCost x y = x.length := by
  unfold ConstantTimeCompareCost ConstantTimeCompareInstr
  simp [h]

/-- Characterisation of `CheckAndRewriteSlug` for a non-empty slug: it
passes exactly on the requests whose URL, after all leading slashes are
dropped, has the slug as a prefix, and then rewrites `req.URL` to the
re-parse of the remainder. -/
theorem CheckAndRewriteSlug_eq (slug url : List Nat) (hs : slug ≠ []) :
    CheckAndRewriteSlug slug url =
      if slug <+: trimLeftSlash url then
        .pass (urlParse ((trimLeftSlash url).drop slug.length))
      else .mismatch := by
  unfold CheckAndRewriteSlug
  rw [if_neg hs]
  set r := trimLeftSlash url with hr
  by_cases hlen : r.length < slug.length
  · rw [if_pos hlen, if_neg]
    intro hp
    exact Nat.not_le.mpr hlen hp.length_le
  · rw [if_neg hlen]
    push_neg at hlen
    have htake : (r.take slug.length).length = slug.length := by
      simp [List.length_take, Nat.min_eq_left hlen]
    have hiff : ConstantTimeCompare slug (r.take slug.length) = 1 ↔
        slug <+: r := by
      rw [ConstantTimeCompare_eq_one_iff _ _ htake.symm]
      constructor
      · intro he
        rw [List.prefix_iff_eq_take]
        exact he
      · intro hp
        exact (List.prefix_iff_eq_take.mp hp)
    by_cases hp : slug <+: r
    · rw [if_pos hp, if_neg]
      · have : trimPrefixList r slug = r.drop slug.length := by
          unfold trimPrefixList
          rw [if_pos (List.isPrefixOf_iff_prefix.mpr hp)]
        rw [this]
      · simp only [ne_eq, Decidable.not_not]
        exact hiff.mpr hp
    · rw [if_neg hp, if_pos]
      intro h1
      exact hp (hiff.mp h1)

/-! ## Lifecycle model of `Onionize`

`Onionize(p, linkCh)` is a linear sequence of fallible external calls.
We model each call's success or failure as an oracle (`LifecycleEnv`) and
record the externally observable events of a run as a trace. `log.Fatalf`
calls `os.Exit`, which terminates the process without running deferred
functions, so the `fatalAbort` paths emit no close events. -/

/-- The configuration fields of `Parameters` that steer `Onionize`'s
control flow: whether slug mode is on, whether the path is served as a
zip archive, and whether a passphrase was supplied (non-empty). -/
structure ParametersShape where
  slug : Bool
  zip : Bool
  passphraseNonempty : Bool
deriving DecidableEq, Fintype

/-- How the serving phase ends: `server.Serve` returns a non-nil error
(`serveFailed`, leading to `log.Fatalf`), the background monitor sees
`c.NextEvent()` fail (`controlLost`, leading to `log.Fatalf`), or
`server.Serve` returns nil (`serveReturned`, the function returns and
deferred closes run). -/
inductive RunOutcome where
  | serveFailed
  | controlLost
  | serveReturned
deriving DecidableEq, Fintype

/-- Success or failure of each fallible external call made by `Onionize`,
in source order: `rand.Read`, `zip.OpenReader`, `os.Stat` (plus whether
the stat result is a directory), `filepath.Abs`, `bulb.DialURL`,
`c.Authenticate`, `onionutil.KeystreamReader`,
`onionutil.GenerateOnionKey`, `c.NewListener`, and the serving phase. -/
structure LifecycleEnv where
  randOk : Bool
  zipOk : Bool
  statOk : Bool
  isDir : Bool
  absOk : Bool
  dialOk : Bool
  authOk : Bool
  keystreamOk : Bool
  keygenOk : Bool
  listenerOk : Bool
  runOutcome : RunOutcome
deriving DecidableEq

/-- Externally observable events of one `Onionize` run. `sendError` and
`sendURL` are the sends on `linkCh`; `controlOpened`/`controlClosed`
bracket the bulb control connection; `listenerCreated`/`listenerClosed`
bracket the onion listener; `serveStart` marks entry into
`server.Serve`; `fatalAbort` is `log.Fatalf` (process exit, deferred
closes skipped). -/
inductive LifeEvent where
  | sendError
  | sendURL
  | controlOpened
  | controlClosed
  | listenerCreated
  | listenerClosed
  | serveStart
  | fatalAbort
deriving DecidableEq, Fintype

/-- Shallow embedding of the control flow of `Onionize` as the trace of
events it produces, translated branch by branch from
`src/lib/onionize.go`. Each early `return` after a failed call first
sends the error on `linkCh` and then runs the deferred closes registered
so far (LIFO); the success path creates the listener, sends the URL,
and serves; `log.Fatalf` exits without running deferred closes. -/
def OnionizeTrace (p : ParametersShape) (e : LifecycleEnv) : List LifeEvent :=
  if p.slug ∧ ¬e.randOk then [.sendError]
  else if p.zip ∧ ¬e.zipOk then [.sendError]
  else if ¬p.zip ∧ ¬e.statOk then [.sendError]
  else if ¬p.zip ∧ ¬e.isDir ∧ ¬e.absOk then [.sendError]
  else if ¬e.dialOk then [.sendError]
  else .controlOpened ::
    (if ¬e.authOk then [.sendError, .controlClosed]
     else if p.passphraseNonempty ∧ ¬e.keystreamOk then
       [.sendError, .controlClosed]
     else if p.passphraseNonempty ∧ ¬e.keygenOk then
       [.sendError, .controlClosed]
     else if ¬e.listenerOk then [.sendError, .controlClosed]
     else .listenerCreated :: .sendURL :: .serveStart ::
       (match e.runOutcome with
        | .serveFailed => [.fatalAbort]
        | .controlLost => [.fatalAbort]
        | .serveReturned => [.listenerClosed, .controlClosed]))

/-- Number of sends on the result channel `linkCh` in a trace. -/
def sendCount (t : List LifeEvent) : Nat :=
  t.countP fun ev => decide (ev = .sendError ∨ ev = .sendURL)

/-! ## Identity derivation and listener configuration -/

/-- The fixed domain-separation label `[]byte("onionize-keygen")` passed
to `onionutil.KeystreamReader` (ASCII bytes of "onionize-keygen"). -/
def onionizeKeygenLabel : List Nat :=
  [111, 110, 105, 111, 110, 105, 122, 101, 45, 107, 101, 121, 103, 101, 110]

/-- Per-run inputs that are outside the passphrase derivation: the bytes
the process draws from `crypto/rand` (used only for the slug) and the key
material the transport provider would generate when no private key is
supplied. Two independent invocations differ in these. -/
structure IdentityEnv where
  processRandom : List Nat
  providerKey : List Nat
deriving DecidableEq

/-- Modelled from the spec at the interface boundary of the external
`onionutil` library (§4.3): `KeystreamReader(pass, label)` yields a
deterministic byte stream (`Nat → Nat`) determined by passphrase and
label, and `GenerateOnionKey` reads key material deterministically from
that stream. `ks` and `kg` are those two functions; the repository code
supplies only the passphrase and the fixed label, and on a non-empty
passphrase never consults the per-run environment. -/
def deriveKeyMaterial (ks : List Nat → List Nat → (Nat → Nat))
    (kg : (Nat → Nat) → List Nat) (pass : List Nat) (e : IdentityEnv) :
    List Nat :=
  if pass = [] then e.providerKey else kg (ks pass onionizeKeygenLabel)

/-- Model of `bulb.NewOnionConfig` as populated by `Onionize`:
`DiscardPK` and `AwaitForUpload` are set to true unconditionally, and
`PrivateKey` is set exactly when the passphrase is non-empty. -/
structure NewOnionConfig where
  discardPK : Bool
  awaitForUpload : Bool
  privateKey : Option (List Nat)
deriving DecidableEq

/-- The `aocfg` value `Onionize` passes to `c.NewListener`, as a function
of the passphrase (`ks`, `kg` as in `deriveKeyMaterial`). -/
def onionListenerConfig (ks : List Nat → List Nat → (Nat → Nat))
    (kg : (Nat → Nat) → List Nat) (pass : List Nat) : NewOnionConfig :=
  { discardPK := true
    awaitForUpload := true
    privateKey :=
      if pass = [] then none else some (kg (ks pass onionizeKeygenLabel)) }

/-- The port argument of the `c.NewListener(aocfg, 80)` call. -/
def onionServicePort : Nat := 80

/-! ## Concrete values used by witnesses and counterexamples -/

/-- A 16-character slug (16 repetitions of byte 97, ASCII `a`), the shape
`Onionize` generates: `Base32Encode(slugBin)[:slugLengthB32]` with
`slugLengthB32 = 16`. -/
def slug16 : List Nat := List.replicate 16 97

/-- Slug mode on, directory source, passphrase supplied. -/
def pAllOk : ParametersShape := ⟨true, false, true⟩

/-- Every external call succeeds and `server.Serve` returns nil. -/
def eAllOk : LifecycleEnv :=
  ⟨true, true, true, true, true, true, true, true, true, true, .serveReturned⟩

/-- Every external call succeeds and `server.Serve` fails. -/
def eServeFail : LifecycleEnv :=
  ⟨true, true, true, true, true, true, true, true, true, true, .serveFailed⟩

/-- A concrete keystream function standing in for
`onionutil.KeystreamReader` in witnesses. -/
def ksDemo : List Nat → List Nat → (Nat → Nat) :=
  fun p l n => (p ++ l).getD n 0

/-- A concrete key-generation function standing in for
`onionutil.GenerateOnionKey` in witnesses. -/
def kgDemo : (Nat → Nat) → List Nat := fun s => [s 0, s 1]

/-! ## Claims -/

/-- C1: with slug mode enabled, a request whose path (after its leading
separators) does not begin with the exact slug byte sequence is never
forwarded to the content handler: the underlying connection is hijacked
and closed with no HTTP response, and if the transport does not support
hijacking the request is dropped silently. -/
theorem slug_mismatch_resets_connection (slug url : List Nat)
    (hijackOk : Bool) (hs : slug ≠ [])
    (hm : ¬ slug <+: trimLeftSlash url) :
    onionizeHandler slug hijackOk url =
      if hijackOk then .reset else .silentFail := by
  unfold onionizeHandler
  rw [CheckAndRewriteSlug_eq slug url hs, if_neg hm]
  cases hijackOk <;> rfl

theorem slug_mismatch_resets_connection_witness :
    slug16 ≠ [] ∧ ¬ slug16 <+: trimLeftSlash [47, 120] ∧
    onionizeHandler slug16 true [47, 120] = .reset :=
  ⟨by decide, by decide, by
    rw [slug_mismatch_resets_connection slug16 [47, 120] true (by decide)
      (by decide)]
    rfl⟩

/-- C2: every run of `Onionize` sends exactly one result on the channel;
on the success path the send happens after the listener is created, and
serving starts only after that single send, with no further send for
later serving or control-channel failures. -/
theorem onionize_emits_single_result (p : ParametersShape)
    (e : LifecycleEnv) :
    sendCount (OnionizeTrace p e) = 1 ∧
    (LifeEvent.sendURL ∈ OnionizeTrace p e →
      (OnionizeTrace p e).take 4 =
        [.controlOpened, .listenerCreated, .sendURL, .serveStart] ∧
      sendCount ((OnionizeTrace p e).drop 4) = 0) := by
  unfold OnionizeTrace
  split_ifs <;> first
    | decide
    | (cases e.runOutcome <;> decide)

theorem onionize_emits_single_result_witness :
    LifeEvent.sendURL ∈ OnionizeTrace pAllOk eAllOk ∧
    (OnionizeTrace pAllOk eAllOk).take 4 =
      [.controlOpened, .listenerCreated, .sendURL, .serveStart] :=
  ⟨by decide, ((onionize_emits_single_result pAllOk eAllOk).2 (by decide)).1⟩

/-- C3 counterexample: with slug mode enabled, a request for the bare
root path "/" is not answered with the redirect to "/" + slug + "/"; the
URL is too short to carry the slug, so the connection is reset. -/
theorem bare_root_reset_counterexample :
    onionizeHandler slug16 true [47] = .reset ∧
    onionizeHandler slug16 true [47] ≠
      .redirectThenServe (47 :: (slug16 ++ [47])) (some []) := by
  decide

/-- C3 amended: with slug mode enabled, the HTTP 302 redirect to
"/" + slug + "/" is issued for the requests whose path after stripping
the leading separators is exactly the slug (empty rewritten path); the
bare root "/" itself fails the slug check and is reset (or silently
dropped when hijacking is unsupported). With slug mode disabled the gate
is the identity transform and no redirect is issued for any non-empty
request URL. -/
theorem slug_redirect_behavior_amended (slug url : List Nat)
    (hijackOk : Bool) :
    (slug ≠ [] → trimLeftSlash url = slug →
      onionizeHandler slug hijackOk url =
        .redirectThenServe (47 :: (slug ++ [47])) (some [])) ∧
    (slug ≠ [] →
      onionizeHandler slug hijackOk [47] =
        if hijackOk then .reset else .silentFail) ∧
    (url ≠ [] → onionizeHandler [] hijackOk url = .serve (some url)) := by
  refine ⟨?_, ?_, ?_⟩
  · intro hs ht
    unfold onionizeHandler
    rw [CheckAndRewriteSlug_eq slug url hs, ht,
      if_pos (List.prefix_refl slug)]
    simp [List.drop_length, urlParse]
  · intro hs
    unfold onionizeHandler
    rw [CheckAndRewriteSlug_eq slug [47] hs, if_neg]
    · cases hijackOk <;> rfl
    · have hnil : trimLeftSlash [47] = [] := rfl
      rw [hnil, List.prefix_nil]
      exact hs
  · intro hu
    unfold onionizeHandler CheckAndRewriteSlug
    simp [hu]

theorem slug_redirect_behavior_amended_witness :
    onionizeHandler slug16 true (47 :: slug16) =
      .redirectThenServe (47 :: (slug16 ++ [47])) (some []) ∧
    onionizeHandler slug16 true [47] = .reset ∧
    onionizeHandler [] true [47, 97] = .serve (some [47, 97]) := by
  refine ⟨(slug_redirect_behavior_amended slug16 (47 :: slug16) true).1
      (by decide) (by decide), ?_, ?_⟩
  · have h := (slug_redirect_behavior_amended slug16 [47] true).2.1
      (by decide)
    simpa using h
  · exact (slug_redirect_behavior_amended [] [47, 97] true).2.2 (by decide)

/-- C4: for a fixed non-empty passphrase, the identity derivation
(keystream with the fixed domain-separation label, then key generation)
is a function of the passphrase alone: two runs with different per-run
randomness and provider key material produce byte-identical key
material, namely the key generated from the labelled keystream. -/
theorem identity_derivation_deterministic
    (ks : List Nat → List Nat → (Nat → Nat))
    (kg : (Nat → Nat) → List Nat) (pass : List Nat)
    (e1 e2 : IdentityEnv) (h : pass ≠ []) :
    deriveKeyMaterial ks kg pass e1 = deriveKeyMaterial ks kg pass e2 ∧
    deriveKeyMaterial ks kg pass e1 = kg (ks pass onionizeKeygenLabel) := by
  unfold deriveKeyMaterial
  rw [if_neg h, if_neg h]
  exact ⟨rfl, rfl⟩

theorem identity_derivation_deterministic_witness :
    ([120] : List Nat) ≠ [] ∧
    deriveKeyMaterial ksDemo kgDemo [120] ⟨[1], [2]⟩ =
      deriveKeyMaterial ksDemo kgDemo [120] ⟨[3], [4]⟩ :=
  ⟨by decide, (identity_derivation_deterministic ksDemo kgDemo [120]
    ⟨[1], [2]⟩ ⟨[3], [4]⟩ (by decide)).1⟩

/-- C5: the listener configuration always requests waiting until the
service is uploaded (propagated) before returning; the private key field
is populated exactly when a passphrase was supplied; DiscardPK is set,
so in particular when no passphrase is given the key is not retained;
and the listener port is 80. -/
theorem listener_config_awaits_and_discards
    (ks : List Nat → List Nat → (Nat → Nat))
    (kg : (Nat → Nat) → List Nat) (pass : List Nat) :
    (onionListenerConfig ks kg pass).awaitForUpload = true ∧
    (pass = [] → (onionListenerConfig ks kg pass).discardPK = true) ∧
    ((onionListenerConfig ks kg pass).privateKey ≠ none ↔ pass ≠ []) ∧
    onionServicePort = 80 := by
  unfold onionListenerConfig onionServicePort
  refine ⟨rfl, fun _ => rfl, ?_, rfl⟩
  by_cases hp : pass = [] <;> simp [hp]

theorem listener_config_awaits_and_discards_witness :
    (onionListenerConfig ksDemo kgDemo []).awaitForUpload = true ∧
    (onionListenerConfig ksDemo kgDemo []).discardPK = true ∧
    (onionListenerConfig ksDemo kgDemo [120]).privateKey ≠ none :=
  ⟨(listener_config_awaits_and_discards ksDemo kgDemo []).1,
   (listener_config_awaits_and_discards ksDemo kgDemo []).2.1 rfl,
   (listener_config_awaits_and_discards ksDemo kgDemo [120]).2.2.1.mpr
     (by decide)⟩

/-- C6 counterexample: when `server.Serve` fails after the result was
emitted, the process aborts via `log.Fatalf` and exits without running
the deferred `onionListener.Close()` and `c.Close()`: the listener and
control connection are not released before the process exits. -/
theorem fatal_abort_skips_release_counterexample :
    LifeEvent.fatalAbort ∈ OnionizeTrace pAllOk eServeFail ∧
    LifeEvent.listenerClosed ∉ OnionizeTrace pAllOk eServeFail ∧
    LifeEvent.controlClosed ∉ OnionizeTrace pAllOk eServeFail := by
  decide

/-- C6 amended: on every non-fatal exit path the control connection and
the listener, once established, are released by the deferred closes; the
fatal aborts (control-channel loss, serve-loop error) exit the process
via `log.Fatalf`, which terminates without running the deferred
releases. -/
theorem resource_release_amended (p : ParametersShape) (e : LifecycleEnv) :
    (LifeEvent.fatalAbort ∉ OnionizeTrace p e →
      (LifeEvent.controlOpened ∈ OnionizeTrace p e →
        LifeEvent.controlClosed ∈ OnionizeTrace p e) ∧
      (LifeEvent.listenerCreated ∈ OnionizeTrace p e →
        LifeEvent.listenerClosed ∈ OnionizeTrace p e)) ∧
    (LifeEvent.fatalAbort ∈ OnionizeTrace p e →
      LifeEvent.controlClosed ∉ OnionizeTrace p e ∧
      LifeEvent.listenerClosed ∉ OnionizeTrace p e) := by
  unfold OnionizeTrace
  split_ifs <;> first
    | decide
    | (cases e.runOutcome <;> decide)

theorem resource_release_amended_witness :
    LifeEvent.controlClosed ∈ OnionizeTrace pAllOk eAllOk ∧
    LifeEvent.listenerClosed ∈ OnionizeTrace pAllOk eAllOk :=
  ⟨((resource_release_amended pAllOk eAllOk).1 (by decide)).1 (by decide),
   ((resource_release_amended pAllOk eAllOk).1 (by decide)).2 (by decide)⟩

/-- C7 counterexample: a request with two leading separators before the
slug ("//" ++ slug ++ "/x") is not rejected: `strings.TrimLeft` strips
every leading separator, so the request matches and is forwarded with
the rewritten URL "/x". -/
theorem double_separator_match_counterexample :
    onionizeHandler slug16 true (47 :: 47 :: (slug16 ++ [47, 120])) =
      .serve (some [47, 120]) ∧
    onionizeHandler slug16 true (47 :: 47 :: (slug16 ++ [47, 120])) ≠
      .reset ∧
    onionizeHandler slug16 true (47 :: 47 :: (slug16 ++ [47, 120])) ≠
      .silentFail := by
  decide

/-- C7 amended: slug matching strips every leading path separator (not
exactly one) before comparing the first len(slug) bytes against the
slug; consequently a request with multiple leading separators before the
slug still matches, and a matching request is forwarded with the
separators and the slug removed (the remainder re-parsed). -/
theorem slug_match_trims_all_separators (slug url : List Nat)
    (hs : slug ≠ []) (hp : slug <+: trimLeftSlash url) :
    CheckAndRewriteSlug slug url =
      .pass (urlParse ((trimLeftSlash url).drop slug.length)) := by
  rw [CheckAndRewriteSlug_eq slug url hs, if_pos hp]

theorem slug_match_trims_all_separators_witness :
    CheckAndRewriteSlug slug16 (47 :: 47 :: (slug16 ++ [47, 120])) =
      .pass (urlParse
        ((trimLeftSlash (47 :: 47 :: (slug16 ++ [47, 120]))).drop
          slug16.length)) :=
  slug_match_trims_all_separators _ _ (by decide) (by decide)

/-- The comparison cost incurred by `CheckAndRewriteSlug` at its
`subtle.ConstantTimeCompare` call site for a given slug and request URL
(0 when the empty-slug or length guard returns before the comparison
runs). -/
def CheckSlugCompareCost (slug url : List Nat) : Nat :=
  if slug = [] then 0
  else
    let reqURL := trimLeftSlash url
    if reqURL.length < slug.length then 0
    else ConstantTimeCompareCost slug (reqURL.take slug.length)

/-- C8: the slug comparison is constant-time in the sense recorded by the
loop-iteration count: any two requests long enough to reach the
comparison — in particular one differing from the slug at position 0 and
one differing at the last position — incur exactly the same count,
namely the slug length, independent of the request bytes. -/
theorem slug_compare_cost_constant (slug u1 u2 : List Nat) (hs : slug ≠ [])
    (h1 : slug.length ≤ (trimLeftSlash u1).length)
    (h2 : slug.length ≤ (trimLeftSlash u2).length) :
    CheckSlugCompareCost slug u1 = CheckSlugCompareCost slug u2 ∧
    CheckSlugCompareCost slug u1 = slug.length := by
  have key : ∀ u, slug.length ≤ (trimLeftSlash u).length →
      CheckSlugCompareCost slug u = slug.length := by
    intro u hu
    unfold CheckSlugCompareCost
    rw [if_neg hs, if_neg (Nat.not_lt.mpr hu)]
    exact ConstantTimeCompareCost_eq _ _
      (by simp [List.length_take, Nat.min_eq_left hu])
  exact ⟨(key u1 h1).trans (key u2 h2).symm, key u1 h1⟩

theorem slug_compare_cost_constant_witness :
    CheckSlugCompareCost slug16 (47 :: (98 :: List.replicate 15 97)) =
      CheckSlugCompareCost slug16 (47 :: (List.replicate 15 97 ++ [98])) :=
  (slug_compare_cost_constant slug16 (47 :: (98 :: List.replicate 15 97))
    (47 :: (List.replicate 15 97 ++ [98]))
    (by decide) (by decide) (by decide)).1

/-- C9: when slug mode is enabled and the rewritten path is empty after
stripping the slug (a request for separators followed by exactly the
slug), the handler writes the 302 redirect and then, lacking an early
return, additionally invokes the inner file server on the same rewritten
(empty-URL) request — the redirect is not the only handling. -/
theorem empty_rewrite_redirects_then_serves (slug url : List Nat)
    (hijackOk : Bool) (hs : slug ≠ []) (he : trimLeftSlash url = slug) :
    onionizeHandler slug hijackOk url =
      .redirectThenServe (47 :: (slug ++ [47])) (some []) := by
  unfold onionizeHandler
  rw [CheckAndRewriteSlug_eq slug url hs, he,
    if_pos (List.prefix_refl slug)]
  simp [List.drop_length, urlParse]

theorem empty_rewrite_redirects_then_serves_witness :
    onionizeHandler slug16 true (47 :: slug16) =
      .redirectThenServe (47 :: (slug16 ++ [47])) (some []) :=
  empty_rewrite_redirects_then_serves slug16 (47 :: slug16) true
    (by decide) (by decide)

/-- C10 counterexample: for a matching request whose remainder fails to
re-parse (a control byte after the slug), `CheckAndRewriteSlug` discards
the parse error and returns success with a nil URL, but the request does
not proceed through the handler: the handler dereferences the nil URL at
its empty-path check and panics, and the file server is not invoked. -/
theorem discarded_parse_error_counterexample :
    CheckAndRewriteSlug slug16 (47 :: (slug16 ++ [1])) = .pass none ∧
    onionizeHandler slug16 true (47 :: (slug16 ++ [1])) = .panicked ∧
    onionizeHandler slug16 true (47 :: (slug16 ++ [1])) ≠ .serve none := by
  decide

/-- C10 amended: for every matching request whose remainder fails to
re-parse, the parse error is discarded and `CheckAndRewriteSlug` returns
success with a nil URL, so the gate does not reject the request; the
handler then dereferences the nil URL at its empty-root-path check and
panics instead of forwarding the request to the file server. -/
theorem discarded_parse_error_amended (slug url : List Nat)
    (hs : slug ≠ []) (hp : slug <+: trimLeftSlash url)
    (hf : urlParse ((trimLeftSlash url).drop slug.length) = none) :
    CheckAndRewriteSlug slug url = .pass none ∧
    ∀ hijackOk : Bool, onionizeHandler slug hijackOk url = .panicked := by
  have hc : CheckAndRewriteSlug slug url = .pass none := by
    rw [CheckAndRewriteSlug_eq slug url hs, if_pos hp, hf]
  refine ⟨hc, fun hijackOk => ?_⟩
  unfold onionizeHandler
  rw [hc]

theorem discarded_parse_error_amended_witness :
    CheckAndRewriteSlug slug16 (47 :: (slug16 ++ [2])) = .pass none ∧
    onionizeHandler slug16 true (47 :: (slug16 ++ [2])) = .panicked :=
  ⟨(discarded_parse_error_amended slug16 (47 :: (slug16 ++ [2]))
      (by decide) (by decide) (by decide)).1,
   (discarded_parse_error_amended slug16 (47 :: (slug16 ++ [2]))
      (by decide) (by decide) (by decide)).2 true⟩
